import Mathlib

/-!
Verification development for the task-then-motion-planning repository.

The repository consists of two source modules:
- structs.py : data-structure contracts (Skill, LiftedOperatorSkill, Perceiver);
- planning.py : the TaskThenMotionPlanner state machine (reset / step / skill dispatch).

We shallowly embed the data model (from the relational-structs dependency, as used
by this repository) and the planner state machine.  Python sets of atoms are
embedded as lists with membership-based subset / intersection tests, which agrees
with the set semantics used by the code (only membership queries are performed).
Mutable object state is embedded as explicit state passing: every method that
mutates the planner returns the new planner state, and exceptions are embedded as
an Except result paired with the state as mutated up to the raise point (Python
exceptions do not roll back prior field assignments).
-/

namespace TTMP

/-- An object (or variable) of the domain: a (name, type) pair, structurally equal
iff name and type match.  Types are flat names, so we embed a Type as its name. -/
structure PObject where
  name : String
  ty : String
deriving DecidableEq

/-- A predicate: a name with a fixed ordered list of argument types. -/
structure Predicate where
  name : String
  argTypes : List String
deriving DecidableEq

/-- A ground atom: a predicate applied to an ordered tuple of objects; equality is
structural. -/
structure GroundAtom where
  pred : Predicate
  args : List PObject
deriving DecidableEq

/-- A lifted operator: a named action schema with ordered parameter variables and
precondition / add-effect / delete-effect atom sets over those variables. -/
structure LiftedOperator where
  name : String
  parameters : List PObject
  preconditions : List GroundAtom
  add_effects : List GroundAtom
  delete_effects : List GroundAtom
deriving DecidableEq

/-- A ground operator: a lifted operator with parameters substituted by concrete
objects, keeping a back-reference to the parent lifted operator. -/
structure GroundOperator where
  parent : LiftedOperator
  parameters : List PObject
  preconditions : List GroundAtom
  add_effects : List GroundAtom
  delete_effects : List GroundAtom
deriving DecidableEq

/-- Positional substitution of a parameter variable by the object at the same
index, leaving non-parameters unchanged. -/
def substObj : List PObject → List PObject → PObject → PObject
  | p :: ps, o :: os, x => if x = p then o else substObj ps os x
  | _, _, x => x

/-- Apply a parameter substitution to a single atom. -/
def substAtom (params objs : List PObject) (a : GroundAtom) : GroundAtom :=
  ⟨a.pred, a.args.map (substObj params objs)⟩

/-- Ground a lifted operator on an ordered tuple of objects (the substitution
preserves parameter order), as in relational-structs LiftedOperator.ground. -/
def LiftedOperator.ground (op : LiftedOperator) (objs : List PObject) : GroundOperator :=
  { parent := op
    parameters := objs
    preconditions := op.preconditions.map (substAtom op.parameters objs)
    add_effects := op.add_effects.map (substAtom op.parameters objs)
    delete_effects := op.delete_effects.map (substAtom op.parameters objs) }

/-- Failure kinds of the core, following the error taxonomy of the design.
In the code, planExhausted is TaskThenMotionPlanningFailure with message
Empty task plan; noApplicableSkill is TaskThenMotionPlanningFailure with message
No skill can execute operator; ambiguousSkill is the failing assertion
len(applicable_skills) == 1 in planning.py; planningFailure is the failing
assertion plan_str is not None in reset, or a parse failure propagating out of
parse_pddl_plan; assertionFailed is a failing assert inside a Skill method. -/
inductive TTMPError where
  | planExhausted
  | noApplicableSkill
  | ambiguousSkill
  | planningFailure
  | assertionFailed
deriving DecidableEq

/-- A skill, from structs.py.  The internal memory of the base Skill class is the
field current_ground_operator (an optional ground operator recorded by reset); it
is passed explicitly to getAction.  getAction may fail (a failing assert in an
implementation), hence the Except result. -/
structure Skill (Obs Act : Type) where
  canExecute : GroundOperator → Bool
  getAction : Option GroundOperator → Obs → Except TTMPError Act

/-- Default Skill.reset from structs.py lines 49-53: assert can_execute holds,
then record the ground operator as current.  Returns the new recorded memory. -/
def Skill.reset {Obs Act : Type} (sk : Skill Obs Act) (g : GroundOperator) :
    Except TTMPError (Option GroundOperator) :=
  if sk.canExecute g then .ok (some g) else .error .assertionFailed

/-- LiftedOperatorSkill.can_execute from structs.py lines 69-70: the ground
operator parent equals the lifted operator bound to this skill (structural
equality on the whole LiftedOperator). -/
def LiftedOperatorSkill.canExecute (op : LiftedOperator) (g : GroundOperator) : Bool :=
  g.parent = op

/-- LiftedOperatorSkill.get_action from structs.py lines 72-75: assert that a
ground operator has been recorded, then apply the object-parameterized policy to
the recorded operator parameters (in declared order) and the observation. -/
def LiftedOperatorSkill.getAction {Obs Act : Type}
    (pol : List PObject → Obs → Act) (mem : Option GroundOperator) (obs : Obs) :
    Except TTMPError Act :=
  match mem with
  | none => .error .assertionFailed
  | some g => .ok (pol g.parameters obs)

/-- A LiftedOperatorSkill bound to lifted operator op with object-parameterized
policy pol, packaged as a Skill. -/
def mkLiftedOperatorSkill {Obs Act : Type}
    (op : LiftedOperator) (pol : List PObject → Obs → Act) : Skill Obs Act :=
  { canExecute := LiftedOperatorSkill.canExecute op
    getAction := LiftedOperatorSkill.getAction pol }

/-- An immutable domain bundle, built once at planner construction. -/
structure PDDLDomain where
  name : String
  operators : List LiftedOperator
  predicates : List Predicate
  types : List String
deriving DecidableEq

/-- A problem instance, built once per episode in reset. -/
structure PDDLProblem where
  domainName : String
  problemName : String
  objects : List PObject
  initAtoms : List GroundAtom
  goal : List GroundAtom
deriving DecidableEq

/-- The planner state, from the fields assigned in TaskThenMotionPlanner.__init__
(planning.py lines 26-49).  current_skill_mem is the recorded ground operator of
the skill currently referenced by current_skill (the base-class memory of that
skill); step always resets the selected skill immediately after selecting it, so
this single cell faithfully tracks the memory of the selected skill. -/
structure TaskThenMotionPlanner (Obs Act : Type) where
  skills : List (Skill Obs Act)
  domain : PDDLDomain
  current_problem : Option PDDLProblem
  current_task_plan : List GroundOperator
  current_operator : Option GroundOperator
  current_skill : Option (Skill Obs Act)
  current_skill_mem : Option GroundOperator

/-- TaskThenMotionPlanner.__init__ (planning.py lines 26-49): store the
collaborators, build the immutable domain, and start with empty plan and no
active operator or skill.  No skill validation happens here. -/
def TaskThenMotionPlanner.init {Obs Act : Type} (types : List String)
    (predicates : List Predicate) (operators : List LiftedOperator)
    (skills : List (Skill Obs Act)) (domainName : String) :
    TaskThenMotionPlanner Obs Act :=
  { skills := skills
    domain := ⟨domainName, operators, predicates, types⟩
    current_problem := none
    current_task_plan := []
    current_operator := none
    current_skill := none
    current_skill_mem := none }

/-- Subset test on atom sets: add_effects.issubset(atoms) in planning.py. -/
def atomsSubset (xs ys : List GroundAtom) : Bool :=
  xs.all fun a => decide (a ∈ ys)

/-- Nonempty-intersection test on atom sets: delete_effects & atoms in
planning.py. -/
def atomsIntersect (xs ys : List GroundAtom) : Bool :=
  xs.any fun a => decide (a ∈ ys)

/-- The operator-termination test of planning.py lines 78-79: all add-effects are
in the current atoms and no delete-effect is. -/
def operatorTerminated (op : GroundOperator) (atoms : List GroundAtom) : Bool :=
  atomsSubset op.add_effects atoms && !atomsIntersect op.delete_effects atoms

/-- The advance test of planning.py lines 77-80: the current operator is None, or
it is terminated in the current atoms. -/
def shouldAdvance (curOp : Option GroundOperator) (atoms : List GroundAtom) : Bool :=
  match curOp with
  | none => true
  | some op => operatorTerminated op atoms

/-- TaskThenMotionPlanner._get_skill_for_operator (planning.py lines 89-96):
filter the registered skills by can_execute; raise noApplicableSkill when none
match, return the unique match, and fail the len == 1 assertion (ambiguousSkill)
when several match. -/
def get_skill_for_operator {Obs Act : Type} (skills : List (Skill Obs Act))
    (op : GroundOperator) : Except TTMPError (Skill Obs Act) :=
  match skills.filter (fun s => s.canExecute op) with
  | [] => .error .noApplicableSkill
  | [s] => .ok s
  | _ :: _ :: _ => .error .ambiguousSkill

/-- TaskThenMotionPlanner.step (planning.py lines 67-87).  The perceiver step
method is embedded as the function perceive from observations to current atoms.
The result pairs the returned action (or raised failure) with the planner state
as mutated up to the return or raise point: in particular the pop of the plan
front and the assignment of current_operator happen before skill dispatch, so
they persist when dispatch fails. -/
def TaskThenMotionPlanner.step {Obs Act : Type} (perceive : Obs → List GroundAtom)
    (p : TaskThenMotionPlanner Obs Act) (obs : Obs) :
    Except TTMPError Act × TaskThenMotionPlanner Obs Act :=
  let atoms := perceive obs
  match p.current_task_plan with
  | [] => (.error .planExhausted, p)
  | nextOp :: rest =>
    if shouldAdvance p.current_operator atoms then
      let p1 := { p with current_task_plan := rest, current_operator := some nextOp }
      match get_skill_for_operator p.skills nextOp with
      | .error e => (.error e, p1)
      | .ok sk =>
        match sk.reset nextOp with
        | .error e => (.error e, { p1 with current_skill := some sk })
        | .ok mem =>
          (sk.getAction mem obs,
           { p1 with current_skill := some sk, current_skill_mem := mem })
    else
      match p.current_skill with
      | none => (.error .assertionFailed, p)
      | some sk => (sk.getAction p.current_skill_mem obs, p)

/-- TaskThenMotionPlanner.reset (planning.py lines 51-65).  The perceiver reset
method is embedded as perceiverReset (objects, initial atoms, goal); the external
planner call run_pddl_planner is embedded as a function returning an optional
plan string (none embeds the None return meaning no plan found, which fails the
assertion plan_str is not None); parse_pddl_plan is embedded as a fallible
parser whose failure propagates.  Both failures are the planningFailure kind.
The problem field is assigned before the external planner is invoked, so it
persists when planning fails. -/
def TaskThenMotionPlanner.reset {Obs Act : Type}
    (perceiverReset : Obs → List PObject × List GroundAtom × List GroundAtom)
    (run_pddl_planner : PDDLDomain → PDDLProblem → Option String)
    (parse_pddl_plan : String → PDDLDomain → PDDLProblem →
      Except Unit (List GroundOperator))
    (p : TaskThenMotionPlanner Obs Act) (obs : Obs) :
    Except TTMPError Unit × TaskThenMotionPlanner Obs Act :=
  let triple := perceiverReset obs
  let problem : PDDLProblem :=
    ⟨p.domain.name, p.domain.name, triple.1, triple.2.1, triple.2.2⟩
  let p1 := { p with current_problem := some problem }
  match run_pddl_planner p.domain problem with
  | none => (.error .planningFailure, p1)
  | some planStr =>
    match parse_pddl_plan planStr p.domain problem with
    | .error _ => (.error .planningFailure, p1)
    | .ok plan =>
      (.ok (),
       { p1 with current_task_plan := plan, current_operator := none,
                 current_skill := none })

/-- The external driver loop: repeatedly call step, threading the planner state
(the state reached when a call raises is the state the loop stops in). -/
def TaskThenMotionPlanner.run {Obs Act : Type} (perceive : Obs → List GroundAtom) :
    TaskThenMotionPlanner Obs Act → List Obs → TaskThenMotionPlanner Obs Act
  | p, [] => p
  | p, obs :: rest =>
    TaskThenMotionPlanner.run perceive (TaskThenMotionPlanner.step perceive p obs).2 rest

/-! ## Helper lemmas characterizing the step state machine -/

/-- A skill returned by skill dispatch satisfies its own can_execute predicate
for the dispatched operator. -/
theorem get_skill_ok_canExecute {Obs Act : Type} {skills : List (Skill Obs Act)}
    {op : GroundOperator} {sk : Skill Obs Act}
    (h : get_skill_for_operator skills op = .ok sk) : sk.canExecute op = true := by
  unfold get_skill_for_operator at h
  rcases hf : skills.filter (fun s => s.canExecute op) with _ | ⟨a, _ | ⟨b, tl⟩⟩ <;>
    rw [hf] at h
  · exact absurd h (by simp)
  · have ha : a ∈ skills.filter (fun s => s.canExecute op) := by
      rw [hf]; exact List.mem_singleton_self a
    have := (List.mem_filter.mp ha).2
    simp only [Except.ok.injEq] at h
    subst h
    simpa using this
  · exact absurd h (by simp)

/-- Step on an empty plan: raise planExhausted, state unchanged. -/
theorem step_nil {Obs Act : Type} (perceive : Obs → List GroundAtom)
    (p : TaskThenMotionPlanner Obs Act) (obs : Obs)
    (hplan : p.current_task_plan = []) :
    TaskThenMotionPlanner.step perceive p obs = (.error .planExhausted, p) := by
  unfold TaskThenMotionPlanner.step
  rw [hplan]

/-- Step on a nonempty plan when the advance test holds and dispatch succeeds:
pop the front, select and reset the returned skill, and return its action. -/
theorem step_cons_advance_ok {Obs Act : Type} (perceive : Obs → List GroundAtom)
    (p : TaskThenMotionPlanner Obs Act) (obs : Obs) (nextOp : GroundOperator)
    (rest : List GroundOperator) (sk : Skill Obs Act)
    (hplan : p.current_task_plan = nextOp :: rest)
    (hadv : shouldAdvance p.current_operator (perceive obs) = true)
    (hsk : get_skill_for_operator p.skills nextOp = .ok sk) :
    TaskThenMotionPlanner.step perceive p obs =
      (sk.getAction (some nextOp) obs,
       { p with current_task_plan := rest, current_operator := some nextOp,
                current_skill := some sk, current_skill_mem := some nextOp }) := by
  have hcan : sk.canExecute nextOp = true := get_skill_ok_canExecute hsk
  have hres : sk.reset nextOp = .ok (some nextOp) := by
    unfold Skill.reset
    rw [hcan]
    rfl
  unfold TaskThenMotionPlanner.step
  rw [hplan]
  simp only [hadv, if_true, hsk, hres]

/-- Step on a nonempty plan when the advance test holds and dispatch fails: the
failure is raised after the pop and the current_operator assignment, which
persist, while the current skill keeps its previous value. -/
theorem step_cons_advance_err {Obs Act : Type} (perceive : Obs → List GroundAtom)
    (p : TaskThenMotionPlanner Obs Act) (obs : Obs) (nextOp : GroundOperator)
    (rest : List GroundOperator) (e : TTMPError)
    (hplan : p.current_task_plan = nextOp :: rest)
    (hadv : shouldAdvance p.current_operator (perceive obs) = true)
    (hsk : get_skill_for_operator p.skills nextOp = .error e) :
    TaskThenMotionPlanner.step perceive p obs =
      (.error e,
       { p with current_task_plan := rest, current_operator := some nextOp }) := by
  unfold TaskThenMotionPlanner.step
  rw [hplan]
  simp only [hadv, if_true, hsk]

/-- Step on a nonempty plan when the advance test fails: the state is unchanged
and the currently selected skill produces the action. -/
theorem step_cons_noadvance {Obs Act : Type} (perceive : Obs → List GroundAtom)
    (p : TaskThenMotionPlanner Obs Act) (obs : Obs) (nextOp : GroundOperator)
    (rest : List GroundOperator)
    (hplan : p.current_task_plan = nextOp :: rest)
    (hadv : shouldAdvance p.current_operator (perceive obs) = false) :
    TaskThenMotionPlanner.step perceive p obs =
      (match p.current_skill with
       | none => (.error .assertionFailed, p)
       | some sk => (sk.getAction p.current_skill_mem obs, p)) := by
  unfold TaskThenMotionPlanner.step
  rw [hplan]
  simp only [hadv, if_false, Bool.false_eq_true]

/-- The state after a step call is unchanged whenever the advance test fails. -/
theorem step_cons_noadvance_state {Obs Act : Type} (perceive : Obs → List GroundAtom)
    (p : TaskThenMotionPlanner Obs Act) (obs : Obs) (nextOp : GroundOperator)
    (rest : List GroundOperator)
    (hplan : p.current_task_plan = nextOp :: rest)
    (hadv : shouldAdvance p.current_operator (perceive obs) = false) :
    (TaskThenMotionPlanner.step perceive p obs).2 = p := by
  rw [step_cons_noadvance perceive p obs nextOp rest hplan hadv]
  cases p.current_skill <;> rfl

/-- Any single step leaves the plan unchanged or pops exactly the front. -/
theorem step_plan_pop_front {Obs Act : Type} (perceive : Obs → List GroundAtom)
    (p : TaskThenMotionPlanner Obs Act) (obs : Obs) :
    (TaskThenMotionPlanner.step perceive p obs).2.current_task_plan =
        p.current_task_plan ∨
      (TaskThenMotionPlanner.step perceive p obs).2.current_task_plan =
        p.current_task_plan.tail := by
  rcases hplan : p.current_task_plan with _ | ⟨nextOp, rest⟩
  · left
    rw [step_nil perceive p obs hplan, hplan]
  · rcases hadv : shouldAdvance p.current_operator (perceive obs) with _ | _
    · left
      rw [step_cons_noadvance_state perceive p obs nextOp rest hplan hadv]
      exact hplan
    · rcases hsk : get_skill_for_operator p.skills nextOp with e | sk
      · right
        rw [step_cons_advance_err perceive p obs nextOp rest e hplan hadv hsk]
        rfl
      · right
        rw [step_cons_advance_ok perceive p obs nextOp rest sk hplan hadv hsk]
        rfl

/-- Any single step leaves the plan a suffix of what it was. -/
theorem step_plan_isSuffix {Obs Act : Type} (perceive : Obs → List GroundAtom)
    (p : TaskThenMotionPlanner Obs Act) (obs : Obs) :
    (TaskThenMotionPlanner.step perceive p obs).2.current_task_plan <:+
      p.current_task_plan := by
  rcases step_plan_pop_front perceive p obs with h | h
  · rw [h]
  · rw [h]
    exact List.tail_suffix _

/-- Across any driver loop, the remaining plan is a suffix of the initial plan. -/
theorem run_plan_isSuffix {Obs Act : Type} (perceive : Obs → List GroundAtom)
    (p : TaskThenMotionPlanner Obs Act) (obss : List Obs) :
    (TaskThenMotionPlanner.run perceive p obss).current_task_plan <:+
      p.current_task_plan := by
  induction obss generalizing p with
  | nil => exact List.suffix_refl _
  | cons obs rest ih =>
    exact (ih (TaskThenMotionPlanner.step perceive p obs).2).trans
      (step_plan_isSuffix perceive p obs)

/-! ## Concrete instances (the cup-and-plate world of tests/test_structs.py) -/

def cupObj : PObject := ⟨"cup", "cup_type"⟩

def plateObj : PObject := ⟨"plate", "plate_type"⟩

def cupVar : PObject := ⟨"?cup", "cup_type"⟩

def plateVar : PObject := ⟨"?plate", "plate_type"⟩

def onPred : Predicate := ⟨"On", ["cup_type", "plate_type"]⟩

def notOnPred : Predicate := ⟨"NotOn", ["cup_type", "plate_type"]⟩

def pickOp : LiftedOperator :=
  ⟨"Pick", [cupVar, plateVar], [⟨notOnPred, [cupVar, plateVar]⟩],
   [⟨onPred, [cupVar, plateVar]⟩], [⟨notOnPred, [cupVar, plateVar]⟩]⟩

def placeOp : LiftedOperator :=
  ⟨"Place", [cupVar, plateVar], [⟨onPred, [cupVar, plateVar]⟩],
   [⟨notOnPred, [cupVar, plateVar]⟩], [⟨onPred, [cupVar, plateVar]⟩]⟩

def pickG : GroundOperator := pickOp.ground [cupObj, plateObj]

def placeG : GroundOperator := placeOp.ground [cupObj, plateObj]

def pickSkill : Skill Nat Nat := mkLiftedOperatorSkill pickOp (fun _ obs => obs + 3)

def placeSkill : Skill Nat Nat := mkLiftedOperatorSkill placeOp (fun _ obs => obs + 5)

def sampleDomain : PDDLDomain :=
  ⟨"ttmp-domain", [pickOp, placeOp], [onPred, notOnPred], ["cup_type", "plate_type"]⟩

/-- A perceiver step function reporting no atom as holding. -/
def emptyPerceive : Nat → List GroundAtom := fun _ => []

/-- A fresh-episode planner state whose plan is [pickG, placeG] and with no
active operator or skill. -/
def freshState : TaskThenMotionPlanner Nat Nat :=
  { skills := [pickSkill, placeSkill]
    domain := sampleDomain
    current_problem := none
    current_task_plan := [pickG, placeG]
    current_operator := none
    current_skill := none
    current_skill_mem := none }

/-- The planner state reached right after the last operator of a plan has been
popped and activated: the remaining plan is empty while pickG is the active
operator, its skill selected and reset. -/
def lastOpActiveState : TaskThenMotionPlanner Nat Nat :=
  { skills := [pickSkill, placeSkill]
    domain := sampleDomain
    current_problem := none
    current_task_plan := []
    current_operator := some pickG
    current_skill := some pickSkill
    current_skill_mem := some pickG }

/-! ## Claim theorems -/

/-- C1: the claim states that step raises planExhausted exactly when the
remaining plan is empty AND no operator is active, and in particular keeps
returning the active skill action while the last operator is still executing on
an empty remaining plan.  The code instead raises as soon as the plan list is
empty: at the concrete state lastOpActiveState, with an active operator whose
add-effects are not satisfied in the perceived atoms (so the advance test is
false and the claim requires the skill action to be returned), step raises
planExhausted. -/
theorem step_planExhausted_despite_active_operator :
    (TaskThenMotionPlanner.step emptyPerceive lastOpActiveState 0).1 =
        .error .planExhausted
      ∧ lastOpActiveState.current_operator = some pickG
      ∧ lastOpActiveState.current_task_plan = []
      ∧ shouldAdvance lastOpActiveState.current_operator (emptyPerceive 0) = false := by
  refine ⟨rfl, rfl, rfl, ?_⟩
  decide

/-- C6: for a LiftedOperatorSkill bound to lifted operator O, can_execute holds
on a ground operator G exactly when the parent of G is structurally equal to O;
hence it holds on every grounding of O and fails on every ground operator whose
parent is a different lifted operator. -/
theorem liftedOperatorSkill_canExecute_iff_parent {Obs Act : Type}
    (O : LiftedOperator) (pol : List PObject → Obs → Act) :
    (∀ G, (mkLiftedOperatorSkill O pol).canExecute G = true ↔ G.parent = O)
    ∧ (∀ objs, (mkLiftedOperatorSkill O pol).canExecute (O.ground objs) = true)
    ∧ (∀ G, G.parent ≠ O → (mkLiftedOperatorSkill O pol).canExecute G = false) := by
  refine ⟨fun G => ?_, fun objs => ?_, fun G hG => ?_⟩
  · simp [mkLiftedOperatorSkill, LiftedOperatorSkill.canExecute]
  · simp [mkLiftedOperatorSkill, LiftedOperatorSkill.canExecute, LiftedOperator.ground]
  · simp [mkLiftedOperatorSkill, LiftedOperatorSkill.canExecute, hG]

/-- Witness for C6 at the concrete Pick skill: can_execute accepts the grounding
of its own operator and rejects a ground operator of the other operator. -/
theorem liftedOperatorSkill_canExecute_iff_parent_witness :
    pickSkill.canExecute pickG = true ∧ pickSkill.canExecute placeG = false :=
  ⟨(liftedOperatorSkill_canExecute_iff_parent pickOp (fun _ obs => obs + 3)).2.1
      [cupObj, plateObj],
   (liftedOperatorSkill_canExecute_iff_parent pickOp (fun _ obs => obs + 3)).2.2
      placeG (by decide)⟩

/-- C8: the default Skill.reset asserts can_execute and then records the ground
operator; a skill returned by skill dispatch satisfies can_execute for the
dispatched operator, so on the step path the reset assertion cannot fail: the
step result is the action of the freshly reset skill and the recorded memory is
the popped operator. -/
theorem skill_reset_assert_rule {Obs Act : Type} (sk : Skill Obs Act)
    (g : GroundOperator) (skills : List (Skill Obs Act)) :
    (sk.canExecute g = true → sk.reset g = .ok (some g))
    ∧ (sk.canExecute g = false → sk.reset g = .error .assertionFailed)
    ∧ (get_skill_for_operator skills g = .ok sk →
        sk.canExecute g = true ∧ sk.reset g = .ok (some g))
    ∧ (∀ (perceive : Obs → List GroundAtom) (p : TaskThenMotionPlanner Obs Act)
        (obs : Obs) (rest : List GroundOperator),
        p.current_task_plan = g :: rest →
        shouldAdvance p.current_operator (perceive obs) = true →
        get_skill_for_operator p.skills g = .ok sk →
        (TaskThenMotionPlanner.step perceive p obs).1 = sk.getAction (some g) obs ∧
        (TaskThenMotionPlanner.step perceive p obs).2.current_skill_mem = some g) := by
  refine ⟨fun hc => ?_, fun hc => ?_, fun hd => ?_, fun perceive p obs rest hplan hadv hd => ?_⟩
  · unfold Skill.reset
    rw [hc]
    rfl
  · unfold Skill.reset
    rw [hc]
    rfl
  · have hc := get_skill_ok_canExecute hd
    refine ⟨hc, ?_⟩
    unfold Skill.reset
    rw [hc]
    rfl
  · rw [step_cons_advance_ok perceive p obs g rest sk hplan hadv hd]
    exact ⟨rfl, rfl⟩

/-- Witness for C8 at the concrete Pick skill: dispatch over the two registered
skills selects pickSkill for pickG, whose reset therefore succeeds and records
pickG. -/
theorem skill_reset_assert_rule_witness :
    pickSkill.canExecute pickG = true ∧ pickSkill.reset pickG = .ok (some pickG) :=
  (skill_reset_assert_rule pickSkill pickG [pickSkill, placeSkill]).2.2.1 rfl

/-- C9: LiftedOperatorSkill.get_action fails the assertion when no ground
operator has been recorded by a reset; when one is recorded it returns the
policy applied to exactly the recorded operator parameters (in declared order)
and never returns an action otherwise. -/
theorem liftedOperatorSkill_getAction_requires_reset {Obs Act : Type}
    (pol : List PObject → Obs → Act) (obs : Obs) :
    (LiftedOperatorSkill.getAction pol none obs = .error .assertionFailed)
    ∧ (∀ g, LiftedOperatorSkill.getAction pol (some g) obs = .ok (pol g.parameters obs))
    ∧ (∀ mem a, LiftedOperatorSkill.getAction pol mem obs = .ok a →
        ∃ g, mem = some g ∧ a = pol g.parameters obs) := by
  refine ⟨rfl, fun g => rfl, fun mem a h => ?_⟩
  cases mem with
  | none => exact absurd h (by simp [LiftedOperatorSkill.getAction])
  | some g =>
    refine ⟨g, rfl, ?_⟩
    simpa [LiftedOperatorSkill.getAction] using h.symm

/-- Witness for C9 at the concrete Pick policy and observation 5 (the scenario
of tests/test_structs.py, where the returned action is 8): an ok action implies
a recorded operator. -/
theorem liftedOperatorSkill_getAction_requires_reset_witness :
    ∃ g, (some pickG = some g ∧ (8 : Nat) = (fun _ obs => obs + 3) g.parameters 5) :=
  (liftedOperatorSkill_getAction_requires_reset (fun _ obs => obs + 3) 5).2.2
    (some pickG) 8 rfl

/-- C2: on a step call with a nonempty plan, the planner pops the front operator,
selects its skill and resets it (recording the operator as the skill memory)
exactly when the advance test holds, and keeps the whole state (in particular
the active operator and skill) unchanged otherwise; and the advance test holds
precisely when there is no active operator, or all add-effects of the active
operator are among the perceived atoms and none of its delete-effects is. -/
theorem step_advance_rule {Obs Act : Type} (perceive : Obs → List GroundAtom)
    (p : TaskThenMotionPlanner Obs Act) (obs : Obs) (nextOp : GroundOperator)
    (rest : List GroundOperator) (sk : Skill Obs Act)
    (hplan : p.current_task_plan = nextOp :: rest) :
    (shouldAdvance p.current_operator (perceive obs) = true →
      get_skill_for_operator p.skills nextOp = .ok sk →
      (TaskThenMotionPlanner.step perceive p obs).2 =
        { p with current_task_plan := rest, current_operator := some nextOp,
                 current_skill := some sk, current_skill_mem := some nextOp })
    ∧ (shouldAdvance p.current_operator (perceive obs) = false →
      (TaskThenMotionPlanner.step perceive p obs).2 = p)
    ∧ (shouldAdvance p.current_operator (perceive obs) = true ↔
        p.current_operator = none ∨
          ∃ op, p.current_operator = some op ∧
            (∀ a ∈ op.add_effects, a ∈ perceive obs) ∧
            (∀ a ∈ op.delete_effects, a ∉ perceive obs)) := by
  refine ⟨fun hadv hsk => ?_, fun hadv => ?_, ?_⟩
  · rw [step_cons_advance_ok perceive p obs nextOp rest sk hplan hadv hsk]
  · exact step_cons_noadvance_state perceive p obs nextOp rest hplan hadv
  · cases hc : p.current_operator with
    | none => simp [shouldAdvance]
    | some op =>
      simp only [shouldAdvance, Option.some.injEq, reduceCtorEq, false_or]
      constructor
      · intro ht
        refine ⟨op, rfl, ?_⟩
        simp only [operatorTerminated, Bool.and_eq_true, Bool.not_eq_true',
          atomsSubset, atomsIntersect, List.all_eq_true, List.any_eq_false,
          decide_eq_true_eq, decide_eq_false_iff_not] at ht
        exact ht
      · rintro ⟨op', hop', hsub, hdis⟩
        obtain rfl : op = op' := Option.some.injEq _ _ ▸ hop'
        simp only [operatorTerminated, Bool.and_eq_true, Bool.not_eq_true',
          atomsSubset, atomsIntersect, List.all_eq_true, List.any_eq_false,
          decide_eq_true_eq, decide_eq_false_iff_not]
        exact ⟨hsub, hdis⟩

/-- Witness for C2: from the fresh two-operator state with no active operator,
one step pops pickG, selects pickSkill and records pickG as its memory. -/
theorem step_advance_rule_witness :
    (TaskThenMotionPlanner.step emptyPerceive freshState 0).2 =
      ({ freshState with current_task_plan := [placeG], current_operator := some pickG,
                         current_skill := some pickSkill,
                         current_skill_mem := some pickG }) :=
  (step_advance_rule emptyPerceive freshState 0 pickG [placeG] pickSkill rfl).1 rfl rfl

/-- C3: skill dispatch selects the unique skill whose can_execute accepts the
popped operator, fails with noApplicableSkill when none does and with
ambiguousSkill when several do; the constructor stores the collaborators without
any such validation (it returns the same record whatever the skills overlap),
and the ambiguity is surfaced by the step call that needs the dispatch. -/
theorem skill_dispatch_rule {Obs Act : Type} (skills : List (Skill Obs Act))
    (op : GroundOperator) :
    (∀ sk, skills.filter (fun s => s.canExecute op) = [sk] →
        get_skill_for_operator skills op = .ok sk)
    ∧ (skills.filter (fun s => s.canExecute op) = [] →
        get_skill_for_operator skills op = .error .noApplicableSkill)
    ∧ (∀ sk₁ sk₂ tl, skills.filter (fun s => s.canExecute op) = sk₁ :: sk₂ :: tl →
        get_skill_for_operator skills op = .error .ambiguousSkill)
    ∧ (∀ types predicates operators domainName,
        TaskThenMotionPlanner.init types predicates operators skills domainName =
          ({ skills := skills, domain := ⟨domainName, operators, predicates, types⟩,
             current_problem := none, current_task_plan := [],
             current_operator := none, current_skill := none,
             current_skill_mem := none } : TaskThenMotionPlanner Obs Act))
    ∧ (∀ (perceive : Obs → List GroundAtom) (p : TaskThenMotionPlanner Obs Act)
        (obs : Obs) (rest : List GroundOperator) sk₁ sk₂ tl,
        p.current_task_plan = op :: rest →
        shouldAdvance p.current_operator (perceive obs) = true →
        p.skills.filter (fun s => s.canExecute op) = sk₁ :: sk₂ :: tl →
        (TaskThenMotionPlanner.step perceive p obs).1 = .error .ambiguousSkill) := by
  refine ⟨fun sk hf => ?_, fun hf => ?_, fun sk₁ sk₂ tl hf => ?_,
    fun types predicates operators domainName => rfl,
    fun perceive p obs rest sk₁ sk₂ tl hplan hadv hf => ?_⟩
  · unfold get_skill_for_operator
    rw [hf]
  · unfold get_skill_for_operator
    rw [hf]
  · unfold get_skill_for_operator
    rw [hf]
  · have hsk : get_skill_for_operator p.skills op = .error .ambiguousSkill := by
      unfold get_skill_for_operator
      rw [hf]
    rw [step_cons_advance_err perceive p obs op rest .ambiguousSkill hplan hadv hsk]

/-- A second skill accepting the same Pick operator, with a different policy. -/
def pickSkillCopy : Skill Nat Nat := mkLiftedOperatorSkill pickOp (fun _ obs => obs + 7)

/-- A planner state built by the constructor with two skills both accepting
pickG: construction succeeds, no validation happens. -/
def ambiguousState : TaskThenMotionPlanner Nat Nat :=
  TaskThenMotionPlanner.init ["cup_type", "plate_type"] [onPred, notOnPred]
    [pickOp, placeOp] [pickSkill, pickSkillCopy] "ttmp-domain"

/-- The ambiguous planner state once a plan requiring pickG is loaded. -/
def ambiguousReadyState : TaskThenMotionPlanner Nat Nat :=
  { ambiguousState with current_task_plan := [pickG] }

/-- Witness for C3: with two skills both accepting pickG, the constructor
succeeds, and the first step that needs the dispatch fails with ambiguousSkill. -/
theorem skill_dispatch_rule_witness :
    (TaskThenMotionPlanner.step emptyPerceive ambiguousReadyState 0).1 =
      .error .ambiguousSkill :=
  (skill_dispatch_rule ambiguousReadyState.skills pickG).2.2.2.2 emptyPerceive
    ambiguousReadyState 0 [] pickSkill pickSkillCopy [] rfl rfl rfl

/-- C7: every step call leaves the plan unchanged or pops exactly the front
element; hence after a step, and after any driver loop of step calls, the
remaining plan is a contiguous suffix of the stored plan; and whenever the
advance test holds (in particular when the active operator effects remain
satisfied across repeated calls) a successful dispatch pops exactly one
operator. -/
theorem step_pops_at_most_front {Obs Act : Type} (perceive : Obs → List GroundAtom)
    (p : TaskThenMotionPlanner Obs Act) (obs : Obs) :
    ((TaskThenMotionPlanner.step perceive p obs).2.current_task_plan =
          p.current_task_plan ∨
        (TaskThenMotionPlanner.step perceive p obs).2.current_task_plan =
          p.current_task_plan.tail)
    ∧ (TaskThenMotionPlanner.step perceive p obs).2.current_task_plan <:+
        p.current_task_plan
    ∧ (∀ obss, (TaskThenMotionPlanner.run perceive p obss).current_task_plan <:+
        p.current_task_plan)
    ∧ (∀ nextOp rest sk, p.current_task_plan = nextOp :: rest →
        shouldAdvance p.current_operator (perceive obs) = true →
        get_skill_for_operator p.skills nextOp = .ok sk →
        (TaskThenMotionPlanner.step perceive p obs).2.current_task_plan = rest) := by
  refine ⟨step_plan_pop_front perceive p obs, step_plan_isSuffix perceive p obs,
    run_plan_isSuffix perceive p, fun nextOp rest sk hplan hadv hsk => ?_⟩
  rw [step_cons_advance_ok perceive p obs nextOp rest sk hplan hadv hsk]

/-- Witness for C7: stepping the fresh two-operator state pops exactly the
front operator pickG, leaving the suffix [placeG]. -/
theorem step_pops_at_most_front_witness :
    (TaskThenMotionPlanner.step emptyPerceive freshState 0).2.current_task_plan =
      [placeG] :=
  (step_pops_at_most_front emptyPerceive freshState 0).2.2.2 pickG [placeG]
    pickSkill rfl rfl rfl

/-- C4: reset fails with planningFailure exactly when the external planner call
returns no plan (failing the plan-string assertion) or its output fails to
parse; it succeeds otherwise; and the outcome is determined by the single
planner invocation on the problem built in this call (no internal retry: any
planner and parser agreeing on that one problem give the same result). -/
theorem reset_planningFailure_rule {Obs Act : Type}
    (perceiverReset : Obs → List PObject × List GroundAtom × List GroundAtom)
    (run_pddl_planner : PDDLDomain → PDDLProblem → Option String)
    (parse_pddl_plan : String → PDDLDomain → PDDLProblem →
      Except Unit (List GroundOperator))
    (p : TaskThenMotionPlanner Obs Act) (obs : Obs)
    (objects : List PObject) (atoms goal : List GroundAtom)
    (hpr : perceiverReset obs = (objects, atoms, goal)) :
    (run_pddl_planner p.domain
        ⟨p.domain.name, p.domain.name, objects, atoms, goal⟩ = none →
      (TaskThenMotionPlanner.reset perceiverReset run_pddl_planner parse_pddl_plan
          p obs).1 = .error .planningFailure)
    ∧ (∀ s, run_pddl_planner p.domain
          ⟨p.domain.name, p.domain.name, objects, atoms, goal⟩ = some s →
        parse_pddl_plan s p.domain
          ⟨p.domain.name, p.domain.name, objects, atoms, goal⟩ = .error () →
        (TaskThenMotionPlanner.reset perceiverReset run_pddl_planner parse_pddl_plan
            p obs).1 = .error .planningFailure)
    ∧ (∀ s plan, run_pddl_planner p.domain
          ⟨p.domain.name, p.domain.name, objects, atoms, goal⟩ = some s →
        parse_pddl_plan s p.domain
          ⟨p.domain.name, p.domain.name, objects, atoms, goal⟩ = .ok plan →
        (TaskThenMotionPlanner.reset perceiverReset run_pddl_planner parse_pddl_plan
            p obs).1 = .ok ())
    ∧ (∀ (run₂ : PDDLDomain → PDDLProblem → Option String)
        (parse₂ : String → PDDLDomain → PDDLProblem →
          Except Unit (List GroundOperator)),
        run₂ p.domain ⟨p.domain.name, p.domain.name, objects, atoms, goal⟩ =
          run_pddl_planner p.domain
            ⟨p.domain.name, p.domain.name, objects, atoms, goal⟩ →
        (∀ s, parse₂ s p.domain
            ⟨p.domain.name, p.domain.name, objects, atoms, goal⟩ =
          parse_pddl_plan s p.domain
            ⟨p.domain.name, p.domain.name, objects, atoms, goal⟩) →
        TaskThenMotionPlanner.reset perceiverReset run₂ parse₂ p obs =
          TaskThenMotionPlanner.reset perceiverReset run_pddl_planner parse_pddl_plan
            p obs) := by
  refine ⟨fun hrun => ?_, fun s hrun hparse => ?_, fun s plan hrun hparse => ?_,
    fun run₂ parse₂ hrun hparse => ?_⟩
  · simp only [TaskThenMotionPlanner.reset, hpr]
    rw [hrun]
  · simp only [TaskThenMotionPlanner.reset, hpr]
    rw [hrun]
    simp only [hparse]
  · simp only [TaskThenMotionPlanner.reset, hpr]
    rw [hrun]
    simp only [hparse]
  · simp only [TaskThenMotionPlanner.reset, hpr]
    rw [hrun]
    cases hv : run_pddl_planner p.domain
        ⟨p.domain.name, p.domain.name, objects, atoms, goal⟩ with
    | none => rfl
    | some s => simp only [hparse s]

/-- The perceiver reset output for the cup-and-plate episode. -/
def samplePerceiverReset : Nat → List PObject × List GroundAtom × List GroundAtom :=
  fun _ =>
    ([cupObj, plateObj], [⟨notOnPred, [cupObj, plateObj]⟩],
     [⟨onPred, [cupObj, plateObj]⟩])

/-- An external planner reporting that no plan exists. -/
def noPlanPlanner : PDDLDomain → PDDLProblem → Option String := fun _ _ => none

/-- An external planner returning a one-step plan string. -/
def okPlanner : PDDLDomain → PDDLProblem → Option String :=
  fun _ _ => some "(pick cup plate)"

/-- A parser accepting exactly the one-step plan string. -/
def sampleParse : String → PDDLDomain → PDDLProblem →
    Except Unit (List GroundOperator) :=
  fun s _ _ => if s = "(pick cup plate)" then .ok [pickG] else .error ()

/-- Witness for C4: with a planner reporting no plan, reset fails with
planningFailure. -/
theorem reset_planningFailure_rule_witness :
    (TaskThenMotionPlanner.reset samplePerceiverReset noPlanPlanner sampleParse
        freshState 0).1 = .error .planningFailure :=
  (reset_planningFailure_rule samplePerceiverReset noPlanPlanner sampleParse
    freshState 0 [cupObj, plateObj] [⟨notOnPred, [cupObj, plateObj]⟩]
    [⟨onPred, [cupObj, plateObj]⟩] rfl).1 rfl

/-- C5: after a successful reset the stored plan is exactly the ground-operator
sequence parsed from the planner output, and the current operator and current
skill are both cleared. -/
theorem reset_success_clears_cursor {Obs Act : Type}
    (perceiverReset : Obs → List PObject × List GroundAtom × List GroundAtom)
    (run_pddl_planner : PDDLDomain → PDDLProblem → Option String)
    (parse_pddl_plan : String → PDDLDomain → PDDLProblem →
      Except Unit (List GroundOperator))
    (p : TaskThenMotionPlanner Obs Act) (obs : Obs)
    (objects : List PObject) (atoms goal : List GroundAtom) (str : String)
    (plan : List GroundOperator)
    (hpr : perceiverReset obs = (objects, atoms, goal))
    (hrun : run_pddl_planner p.domain
      ⟨p.domain.name, p.domain.name, objects, atoms, goal⟩ = some str)
    (hparse : parse_pddl_plan str p.domain
      ⟨p.domain.name, p.domain.name, objects, atoms, goal⟩ = .ok plan) :
    (TaskThenMotionPlanner.reset perceiverReset run_pddl_planner parse_pddl_plan
        p obs).1 = .ok ()
    ∧ (TaskThenMotionPlanner.reset perceiverReset run_pddl_planner parse_pddl_plan
        p obs).2.current_task_plan = plan
    ∧ (TaskThenMotionPlanner.reset perceiverReset run_pddl_planner parse_pddl_plan
        p obs).2.current_operator = none
    ∧ (TaskThenMotionPlanner.reset perceiverReset run_pddl_planner parse_pddl_plan
        p obs).2.current_skill = none := by
  have hchar : TaskThenMotionPlanner.reset perceiverReset run_pddl_planner
      parse_pddl_plan p obs =
      (.ok (),
       { p with
         current_problem :=
           some ⟨p.domain.name, p.domain.name, objects, atoms, goal⟩,
         current_task_plan := plan,
         current_operator := none,
         current_skill := none }) := by
    simp only [TaskThenMotionPlanner.reset, hpr]
    rw [hrun]
    simp only [hparse]
  rw [hchar]
  exact ⟨rfl, rfl, rfl, rfl⟩

/-- Witness for C5: a successful reset from the state in which the previous
episode still had an active operator and skill stores the parsed plan [pickG]
and clears both cursor fields. -/
theorem reset_success_clears_cursor_witness :
    (TaskThenMotionPlanner.reset samplePerceiverReset okPlanner sampleParse
        lastOpActiveState 0).2.current_task_plan = [pickG]
    ∧ (TaskThenMotionPlanner.reset samplePerceiverReset okPlanner sampleParse
        lastOpActiveState 0).2.current_operator = none
    ∧ (TaskThenMotionPlanner.reset samplePerceiverReset okPlanner sampleParse
        lastOpActiveState 0).2.current_skill = none :=
  (reset_success_clears_cursor samplePerceiverReset okPlanner sampleParse
    lastOpActiveState 0 [cupObj, plateObj] [⟨notOnPred, [cupObj, plateObj]⟩]
    [⟨onPred, [cupObj, plateObj]⟩] "(pick cup plate)" [pickG] rfl rfl rfl).2

/-- C10: when reset fails during the external planning call (no plan found, or
unparseable output), the stored plan, current operator and current skill keep
their previous values, while the stored problem has already been replaced by
the newly built one: the resulting state is exactly the old state with only the
problem field updated. -/
theorem reset_failure_keeps_cursor {Obs Act : Type}
    (perceiverReset : Obs → List PObject × List GroundAtom × List GroundAtom)
    (run_pddl_planner : PDDLDomain → PDDLProblem → Option String)
    (parse_pddl_plan : String → PDDLDomain → PDDLProblem →
      Except Unit (List GroundOperator))
    (p : TaskThenMotionPlanner Obs Act) (obs : Obs)
    (objects : List PObject) (atoms goal : List GroundAtom)
    (hpr : perceiverReset obs = (objects, atoms, goal))
    (hfail : run_pddl_planner p.domain
        ⟨p.domain.name, p.domain.name, objects, atoms, goal⟩ = none ∨
      ∃ s, run_pddl_planner p.domain
          ⟨p.domain.name, p.domain.name, objects, atoms, goal⟩ = some s ∧
        parse_pddl_plan s p.domain
          ⟨p.domain.name, p.domain.name, objects, atoms, goal⟩ = .error ()) :
    (TaskThenMotionPlanner.reset perceiverReset run_pddl_planner parse_pddl_plan
        p obs).2 =
      ({ p with
         current_problem :=
           some ⟨p.domain.name, p.domain.name, objects, atoms, goal⟩ })
    ∧ (TaskThenMotionPlanner.reset perceiverReset run_pddl_planner parse_pddl_plan
        p obs).2.current_task_plan = p.current_task_plan
    ∧ (TaskThenMotionPlanner.reset perceiverReset run_pddl_planner parse_pddl_plan
        p obs).2.current_operator = p.current_operator
    ∧ (TaskThenMotionPlanner.reset perceiverReset run_pddl_planner parse_pddl_plan
        p obs).2.current_skill = p.current_skill := by
  have hchar : (TaskThenMotionPlanner.reset perceiverReset run_pddl_planner
      parse_pddl_plan p obs).2 =
      ({ p with
         current_problem :=
           some ⟨p.domain.name, p.domain.name, objects, atoms, goal⟩ }) := by
    rcases hfail with hrun | ⟨s, hrun, hparse⟩
    · simp only [TaskThenMotionPlanner.reset, hpr]
      rw [hrun]
    · simp only [TaskThenMotionPlanner.reset, hpr]
      rw [hrun]
      simp only [hparse]
  rw [hchar]
  exact ⟨rfl, rfl, rfl, rfl⟩

/-- Witness for C10: a failing reset from the state in which an operator was
still active keeps the plan, operator and skill of that state and only replaces
the stored problem. -/
theorem reset_failure_keeps_cursor_witness :
    (TaskThenMotionPlanner.reset samplePerceiverReset noPlanPlanner sampleParse
        lastOpActiveState 0).2.current_operator = some pickG
    ∧ (TaskThenMotionPlanner.reset samplePerceiverReset noPlanPlanner sampleParse
        lastOpActiveState 0).2.current_skill = some pickSkill :=
  ⟨((reset_failure_keeps_cursor samplePerceiverReset noPlanPlanner sampleParse
      lastOpActiveState 0 [cupObj, plateObj] [⟨notOnPred, [cupObj, plateObj]⟩]
      [⟨onPred, [cupObj, plateObj]⟩] rfl (Or.inl rfl)).2.2.1).trans rfl,
   ((reset_failure_keeps_cursor samplePerceiverReset noPlanPlanner sampleParse
      lastOpActiveState 0 [cupObj, plateObj] [⟨notOnPred, [cupObj, plateObj]⟩]
      [⟨onPred, [cupObj, plateObj]⟩] rfl (Or.inl rfl)).2.2.2).trans rfl⟩

end TTMP
